import Mathlib

/-!
# Verification of themis.rs `soter` CRC-32C and Hash primitives

Shallow embedding of the CRC-32C engine (`src/soter/src/crc/`) and the
digest (hash) lifecycle wrapper (`src/soter/src/hash.rs`,
`src/soter-boringssl/src/hash.rs`) of the themis.rs repository.

Machine integers are modelled as `Nat` with explicit `% 2 ^ 32` (u32) and
`% 2 ^ 8` (u8) reductions where the Rust types truncate.  Byte buffers are
`List Nat` whose elements are below `2 ^ 8`.  Runtime CPU-capability
detection and the address alignment of a buffer are environment inputs and
appear as explicit parameters (`hw : Bool`, `a : Nat`).
-/

/-! ## CRC-32C byte-step

The Rust repository ships a portable software backend
(`crc/platform/software.rs`) that all hardware paths must match.
-/

/-- The reflected form of the Castagnoli polynomial 0x11EDC6F41. -/
def CRC32C_POLY : Nat := 0x82F63B78

/-- One bit-step of the reflected CRC-32C update: shift right, conditionally
folding in the reflected polynomial when the dropped bit is set. -/
def crc32c_step (crc : Nat) : Nat :=
  if crc % 2 = 1 then (crc / 2) ^^^ CRC32C_POLY else crc / 2

/-- `n` successive bit-steps of the reflected CRC-32C update. -/
def crc32c_steps : Nat → Nat → Nat
  | 0, crc => crc
  | n + 1, crc => crc32c_steps n (crc32c_step crc)

/-- Modelled from the spec: the per-byte update of the portable software
CRC-32C backend (`software::update_crc32c`, file
`src/soter/src/crc/platform/software.rs`, absent from the sources; the spec
specifies "the canonical reference algorithm" for reflected Castagnoli
CRC-32C): xor the byte into the low bits of the register and run eight
bit-steps.  The `% 2 ^ 32` and `% 2 ^ 8` reductions embed the `u32`/`u8`
argument types. -/
def software_crc32c_byte (state byte : Nat) : Nat :=
  crc32c_steps 8 ((state % 2 ^ 32) ^^^ (byte % 2 ^ 8))

/-- Modelled from the spec: `software::update_crc32c(state, data)` — the
portable reference CRC-32C update, folding the per-byte update over the
buffer. -/
def software_update_crc32c (state : Nat) (data : List Nat) : Nat :=
  data.foldl software_crc32c_byte state

/-! ## SSE 4.2 hardware backend (`crc/platform/sse42.rs`)

The `_mm_crc32_u8` / `_mm_crc32_u64` intrinsics are CPU instructions
external to the repository; they are embedded by their documented
semantics: the SSE 4.2 `crc32` instruction accumulates the reflected
Castagnoli CRC over the source bytes (least-significant byte first for the
64-bit form) starting from the low 32 bits of the destination register. -/

/-- Semantics of the `_mm_crc32_u8` intrinsic (`crc32 r32, r8`). -/
def mm_crc32_u8 (state byte : Nat) : Nat :=
  crc32c_steps 8 ((state % 2 ^ 32) ^^^ (byte % 2 ^ 8))

/-- The `n` least-significant bytes of `q`, least-significant first (the
byte order in which the 64-bit `crc32` instruction consumes its source
operand, and the order in which an x86 load reads them from memory). -/
def bytesLE : Nat → Nat → List Nat
  | 0, _ => []
  | n + 1, q => q % 2 ^ 8 :: bytesLE n (q / 2 ^ 8)

/-- A 64-bit little-endian load: reassembles eight bytes into the `u64`
value an x86 read of the aligned chunk produces. -/
def toNatLE (bytes : List Nat) : Nat :=
  bytes.foldr (fun b acc => b + 2 ^ 8 * acc) 0

/-- Semantics of the `_mm_crc32_u64` intrinsic (`crc32 r64, r64`): the
eight source bytes are folded least-significant first, starting from the
low 32 bits of the crc operand; the result fits in 32 bits. -/
def mm_crc32_u64 (state64 q : Nat) : Nat :=
  (bytesLE 8 q).foldl mm_crc32_u8 (state64 % 2 ^ 32)

/-- `sse42::update_crc32c_linear(state, data)`: processes the buffer one
byte at a time with the byte form of the instruction. -/
def sse42_update_crc32c_linear (state : Nat) (data : List Nat) : Nat :=
  data.foldl mm_crc32_u8 state

/-- The aligned middle run of `sse42::update_crc32c_unrolled`: `for qword
in qwords { state64 = _mm_crc32_u64(state64, *qword) }`, where consecutive
groups of eight bytes are read as little-endian `u64` lanes. -/
def foldQwords : Nat → List Nat → Nat
  | state64, b0 :: b1 :: b2 :: b3 :: b4 :: b5 :: b6 :: b7 :: rest =>
      foldQwords (mm_crc32_u64 state64 (toNatLE [b0, b1, b2, b3, b4, b5, b6, b7])) rest
  | state64, _ => state64

/-- `sse42::update_crc32c_unrolled(state, data)` (x86_64 form).
`data.align_to::<u64>()` splits the buffer into an unaligned head, a
maximal run of 8-byte-aligned `u64` lanes and a tail; `a` is the address
alignment (mod 8) of the start of the buffer, which determines the split.
The head and tail use the byte instruction, the middle the 64-bit
instruction; `state as u64` / `state64 as u32` are the zero-extension and
truncation at the boundaries of the aligned run. -/
def sse42_update_crc32c_unrolled (a state : Nat) (data : List Nat) : Nat :=
  let p := min ((8 - a % 8) % 8) data.length
  let head := data.take p
  let rest := data.drop p
  let nq := rest.length / 8
  let mid := rest.take (nq * 8)
  let tail := rest.drop (nq * 8)
  let s1 := head.foldl mm_crc32_u8 state
  let s64 := foldQwords s1 mid
  let s2 := s64 % 2 ^ 32
  tail.foldl mm_crc32_u8 s2

/-- Threshold for using unrolled CRC-32C computation
(`sse42::CRC32C_UNROLL_THRESHOLD`). -/
def CRC32C_UNROLL_THRESHOLD : Nat := 16

/-- `sse42::update_crc32c(state, data)`: dispatches to the unrolled or the
linear strategy by buffer length. -/
def sse42_update_crc32c (a state : Nat) (data : List Nat) : Nat :=
  if data.length ≥ CRC32C_UNROLL_THRESHOLD then
    sse42_update_crc32c_unrolled a state data
  else
    sse42_update_crc32c_linear state data

/-! ## Runtime dispatch (`crc/platform/mod.rs`)

`is_x86_feature_detected!("sse4.2")` is a pure query of fixed hardware
state; it is the environment parameter `hw : Bool`. -/

/-- `update_crc32c_runtime(state, data)`: re-detects the CPU capability on
every call and dispatches to the SSE 4.2 backend or to the software
fallback. -/
def update_crc32c_runtime (hw : Bool) (a state : Nat) (data : List Nat) : Nat :=
  if hw then sse42_update_crc32c a state data
  else software_update_crc32c state data

/-- The possible contents of the process-wide `UPDATE_CRC32C` atomic slot:
the detection thunk it starts at, or one of the two published backends. -/
inductive CRCFn : Type
  | detectFn : CRCFn
  | sse42Fn : CRCFn
  | softwareFn : CRCFn
deriving DecidableEq

/-- The initial value of the `UPDATE_CRC32C` slot on x86: the detection
thunk `detect_update_crc32c`. -/
def UPDATE_CRC32C_init : CRCFn := CRCFn.detectFn

/-- `detect_update_crc32c(state, data)`: runs capability detection, picks
the backend, publishes it into the slot (returned as the second component)
and immediately invokes it. -/
def detect_update_crc32c (hw : Bool) (a state : Nat) (data : List Nat) : Nat × CRCFn :=
  if hw then (sse42_update_crc32c a state data, CRCFn.sse42Fn)
  else (software_update_crc32c state data, CRCFn.softwareFn)

/-- `update_crc32c_lazy(state, data)`: loads the slot and invokes whatever
function it holds.  Returns the value, the slot contents after the call,
and — as instrumentation for the memoization property — whether this call
invoked the detection thunk. -/
def update_crc32c_lazy (hw : Bool) (a : Nat) (slot : CRCFn) (state : Nat)
    (data : List Nat) : Nat × CRCFn × Bool :=
  match slot with
  | CRCFn.detectFn =>
      let r := detect_update_crc32c hw a state data
      (r.1, r.2, true)
  | CRCFn.sse42Fn => (sse42_update_crc32c a state data, slot, false)
  | CRCFn.softwareFn => (software_update_crc32c state data, slot, false)

/-! ## CRC accumulator (`crc/mod.rs`) -/

/-- Initial state for CRC-32 computation (`INIT_CRC32`). -/
def INIT_CRC32 : Nat := 0xFFFFFFFF

/-- Bitwise complement of a `u32` (`!x` in Rust). -/
def not32 (x : Nat) : Nat := x ^^^ 0xFFFFFFFF

/-- `u32::swap_bytes`: reverses the byte order of a 32-bit value. -/
def swapBytes32 (x : Nat) : Nat :=
  (x % 2 ^ 8) * 2 ^ 24 + (x / 2 ^ 8 % 2 ^ 8) * 2 ^ 16 +
    (x / 2 ^ 16 % 2 ^ 8) * 2 ^ 8 + (x / 2 ^ 24 % 2 ^ 8)

/-- `CRC32C`: the accumulator owning the running register. -/
structure CRC32C : Type where
  reg : Nat
deriving DecidableEq

/-- `CRC32C::new()`: register at `INIT_CRC32`. -/
def CRC32C.new : CRC32C := ⟨INIT_CRC32⟩

/-- `CRC32C::update(data)`: feeds bytes through
`platform::update_crc32c_runtime`.  `hw` and `a` are the environment:
CPU capability and address alignment of the buffer. -/
def CRC32C.update (c : CRC32C) (hw : Bool) (a : Nat) (data : List Nat) : CRC32C :=
  ⟨update_crc32c_runtime hw a c.reg data⟩

/-- `CRC32C::result()`: the RFC 3309 finalization — bitwise complement,
then byte swap.  Pure in the register. -/
def CRC32C.result (c : CRC32C) : Nat :=
  swapBytes32 (not32 c.reg)

/-- `CRC32C::complete()`: consumes the accumulator and returns the
finalized checksum. -/
def CRC32C.complete (c : CRC32C) : Nat :=
  c.result

/-- `CRC32C::reset()`: returns the finalized value and reinitializes the
register to `INIT_CRC32` (returned as the new accumulator). -/
def CRC32C.reset (c : CRC32C) : Nat × CRC32C :=
  (c.result, ⟨INIT_CRC32⟩)

/-- `CRC32C::checksum(data)`: one-shot `new`/`update`/`complete`. -/
def CRC32C.checksum (hw : Bool) (a : Nat) (data : List Nat) : Nat :=
  (CRC32C.new.update hw a data).complete

/-! ## Digest context (`soter/src/hash.rs` over `soter-boringssl/src/hash.rs`)

The native BoringSSL digest engine is an external collaborator.  Its
context is modelled by the algorithm it was initialized for and the bytes
fed so far; the digest computation itself is a parameter
`digest : Algorithm → List Nat → List Nat` of every operation that invokes
it.  Native calls that can fail are modelled by boolean environment
parameters stating whether the native layer succeeds. -/

/-- `ErrorKind` (`soter/src/error.rs`). -/
inductive ErrorKind : Type
  | Failure : ErrorKind
  | InvalidParameter : ErrorKind
  | BufferTooSmall : Nat → ErrorKind
  | NotSupported : ErrorKind
deriving DecidableEq

/-- `Algorithm` (`soter/src/hash.rs`): the two supported digests. -/
inductive Algorithm : Type
  | SHA256 : Algorithm
  | SHA512 : Algorithm
deriving DecidableEq

/-- Modelled from the spec: the fixed output size of each algorithm
("SHA-256 variant yields 32 bytes; SHA-512 variant yields 64"), reported
by the native `EVP_MD_CTX_size`. -/
def Algorithm.outputSize : Algorithm → Nat
  | Algorithm.SHA256 => 32
  | Algorithm.SHA512 => 64

/-- `EVP_sha256()`: descriptor of the SHA-256 digest. -/
def EVP_sha256 : Algorithm := Algorithm.SHA256

/-- `EVP_sha512()`: descriptor of the SHA-512 digest. -/
def EVP_sha512 : Algorithm := Algorithm.SHA512

/-- `EVP_MD_CTX` (`soter-boringssl/src/hash.rs`): the native digest
context, modelled by the digest type it was initialized for (`none` right
after allocation) and the bytes fed so far. -/
structure EVP_MD_CTX : Type where
  md : Option Algorithm
  fed : List Nat
deriving DecidableEq

/-- `EVP_MD_CTX_create()`: allocates a fresh context; returns `Failure`
when the native allocation yields a null pointer (`allocOk = false`). -/
def EVP_MD_CTX_create (allocOk : Bool) : Except ErrorKind EVP_MD_CTX :=
  if allocOk then Except.ok { md := none, fed := [] }
  else Except.error ErrorKind.Failure

/-- `EVP_MD_CTX_size(ctx)`: output size of the digest the context is
initialized for. -/
def EVP_MD_CTX_size (ctx : EVP_MD_CTX) : Nat :=
  match ctx.md with
  | some a => a.outputSize
  | none => 0

/-- `EVP_DigestInit(ctx, type)`: initializes the context for the digest
type; returns `Failure` when the native call does not return 1
(`initOk = false`). -/
def EVP_DigestInit (initOk : Bool) (ctx : EVP_MD_CTX) (type' : Algorithm) :
    Except ErrorKind EVP_MD_CTX :=
  if initOk then Except.ok { ctx with md := some type', fed := [] }
  else Except.error ErrorKind.Failure

/-- `EVP_DigestUpdate(ctx, bytes)`: feeds bytes into the context. -/
def EVP_DigestUpdate (ctx : EVP_MD_CTX) (bytes : List Nat) : EVP_MD_CTX :=
  { ctx with fed := ctx.fed ++ bytes }

/-- `EVP_DigestFinal_ex(ctx, buffer)`: checks the buffer against the
digest size and errors with `BufferTooSmall(need_size)` on a short buffer,
leaving the buffer untouched; otherwise the native layer writes the digest
value over the first bytes of the buffer and the call returns the written
sub-slice.  Returns (result, buffer after the call). -/
def EVP_DigestFinal_ex (digest : Algorithm → List Nat → List Nat)
    (ctx : EVP_MD_CTX) (buffer : List Nat) :
    Except ErrorKind (List Nat) × List Nat :=
  let need := EVP_MD_CTX_size ctx
  if buffer.length < need then
    (Except.error (ErrorKind.BufferTooSmall need), buffer)
  else
    let out := match ctx.md with
      | some a => digest a ctx.fed
      | none => []
    (Except.ok ((out ++ buffer.drop out.length).take out.length),
      out ++ buffer.drop out.length)

/-- `Hash` (`soter/src/hash.rs`): the digest context state machine. -/
structure Hash : Type where
  ctx : EVP_MD_CTX
  finalised : Bool
deriving DecidableEq

/-- `Hash::try_new(algorithm)`: allocates and initializes the native
context; propagates native failures to the caller. -/
def Hash.try_new (allocOk initOk : Bool) (algorithm : Algorithm) :
    Except ErrorKind Hash :=
  let evp := match algorithm with
    | Algorithm.SHA256 => EVP_sha256
    | Algorithm.SHA512 => EVP_sha512
  match EVP_MD_CTX_create allocOk with
  | Except.error e => Except.error e
  | Except.ok ctx0 =>
    match EVP_DigestInit initOk ctx0 evp with
    | Except.error e => Except.error e
    | Except.ok ctx => Except.ok { ctx := ctx, finalised := false }

/-- `Hash::new(algorithm)`: `try_new` with a panic (`none`) on error. -/
def Hash.new (allocOk initOk : Bool) (algorithm : Algorithm) : Option Hash :=
  match Hash.try_new allocOk initOk algorithm with
  | Except.ok h => some h
  | Except.error _ => none

/-- `Hash::output_size()`. -/
def Hash.output_size (h : Hash) : Nat :=
  EVP_MD_CTX_size h.ctx

/-- `Hash::finalise(buffer)`: fails with `Failure` when already finalised;
otherwise delegates to `EVP_DigestFinal_ex` and sets the `finalised` flag
on success only.  Returns (result, context after the call, buffer after
the call). -/
def Hash.finalise (digest : Algorithm → List Nat → List Nat) (h : Hash)
    (buffer : List Nat) : Except ErrorKind (List Nat) × Hash × List Nat :=
  if h.finalised then (Except.error ErrorKind.Failure, h, buffer)
  else
    match EVP_DigestFinal_ex digest h.ctx buffer with
    | (Except.error e, buffer') => (Except.error e, h, buffer')
    | (Except.ok res, buffer') =>
        (Except.ok res, { h with finalised := true }, buffer')

/-- `Hash::write(bytes)`: panics (`none`) when the hash is already
finalised, otherwise feeds the bytes into the native context. -/
def Hash.write (h : Hash) (bytes : List Nat) : Option Hash :=
  if h.finalised then none
  else some { h with ctx := EVP_DigestUpdate h.ctx bytes }

/-! ## Helper lemmas: the CRC-32C register stays a 32-bit value -/

lemma xor_lt_two_pow_32 {x y : Nat} (hx : x < 2 ^ 32) (hy : y < 2 ^ 32) :
    x ^^^ y < 2 ^ 32 :=
  Nat.bitwise_lt hx hy

lemma crc32c_step_lt {crc : Nat} (h : crc < 2 ^ 32) : crc32c_step crc < 2 ^ 32 := by
  unfold crc32c_step
  split
  · exact xor_lt_two_pow_32 (by omega) (by norm_num [CRC32C_POLY])
  · omega

lemma crc32c_steps_lt (n : Nat) {crc : Nat} (h : crc < 2 ^ 32) :
    crc32c_steps n crc < 2 ^ 32 := by
  induction n generalizing crc with
  | zero => exact h
  | succ n ih => exact ih (crc32c_step_lt h)

lemma mm_crc32_u8_lt (s b : Nat) : mm_crc32_u8 s b < 2 ^ 32 := by
  unfold mm_crc32_u8
  exact crc32c_steps_lt 8
    (xor_lt_two_pow_32 (Nat.mod_lt _ (by norm_num))
      (lt_trans (Nat.mod_lt _ (by norm_num)) (by norm_num)))

lemma mm_crc32_u8_mod (s b : Nat) : mm_crc32_u8 (s % 2 ^ 32) b = mm_crc32_u8 s b := by
  unfold mm_crc32_u8
  rw [Nat.mod_mod_of_dvd s dvd_rfl]

lemma foldl_mm_lt {s : Nat} (l : List Nat) (h : s < 2 ^ 32) :
    List.foldl mm_crc32_u8 s l < 2 ^ 32 := by
  induction l generalizing s with
  | nil => exact h
  | cons b l ih => exact ih (mm_crc32_u8_lt s b)

lemma foldl_mm_mod (l : List Nat) (s : Nat) :
    List.foldl mm_crc32_u8 (s % 2 ^ 32) l = List.foldl mm_crc32_u8 s l % 2 ^ 32 := by
  cases l with
  | nil => rfl
  | cons b l =>
    simp only [List.foldl_cons, mm_crc32_u8_mod]
    exact (Nat.mod_eq_of_lt (foldl_mm_lt l (mm_crc32_u8_lt s b))).symm

lemma mm_crc32_u64_lt (s q : Nat) : mm_crc32_u64 s q < 2 ^ 32 := by
  unfold mm_crc32_u64
  exact foldl_mm_lt _ (Nat.mod_lt _ (by norm_num))

/-! ## Helper lemmas: little-endian byte decomposition round-trips -/

lemma bytesLE_toNatLE : ∀ l : List Nat, (∀ b ∈ l, b < 2 ^ 8) →
    bytesLE l.length (toNatLE l) = l := by
  intro l
  induction l with
  | nil => intro _; rfl
  | cons b l ih =>
    intro hb
    have hblt : b < 2 ^ 8 := hb b (List.mem_cons_self b l)
    have hmod : (b + 2 ^ 8 * toNatLE l) % 2 ^ 8 = b := by
      rw [Nat.add_mul_mod_self_left]
      exact Nat.mod_eq_of_lt hblt
    have hdiv : (b + 2 ^ 8 * toNatLE l) / 2 ^ 8 = toNatLE l := by
      rw [Nat.add_mul_div_left _ _ (by norm_num : (0:Nat) < 2 ^ 8),
        Nat.div_eq_of_lt hblt, Nat.zero_add]
    show (b + 2 ^ 8 * toNatLE l) % 2 ^ 8 ::
        bytesLE l.length ((b + 2 ^ 8 * toNatLE l) / 2 ^ 8) = b :: l
    rw [hmod, hdiv, ih (fun x hx => hb x (List.mem_cons_of_mem b hx))]

lemma mm_crc32_u64_toNatLE (s64 : Nat) (l : List Nat) (hlen : l.length = 8)
    (hb : ∀ b ∈ l, b < 2 ^ 8) :
    mm_crc32_u64 s64 (toNatLE l) = List.foldl mm_crc32_u8 (s64 % 2 ^ 32) l := by
  unfold mm_crc32_u64
  rw [← hlen, bytesLE_toNatLE l hb]

/-! ## Helper lemmas: the aligned 64-bit run equals byte-at-a-time folding -/

set_option maxHeartbeats 2000000 in
lemma foldQwords_eq (n : Nat) : ∀ (mid : List Nat) (s64 : Nat),
    mid.length = 8 * n → (∀ b ∈ mid, b < 2 ^ 8) → s64 < 2 ^ 32 →
    foldQwords s64 mid = List.foldl mm_crc32_u8 s64 mid := by
  induction n with
  | zero =>
    intro mid s64 hlen _ _
    rw [List.length_eq_zero.mp (by omega : mid.length = 0)]
    rfl
  | succ n ih =>
    intro mid s64 hlen hb hs
    match mid, hlen with
    | b0 :: b1 :: b2 :: b3 :: b4 :: b5 :: b6 :: b7 :: rest, hlen =>
      have hrest : rest.length = 8 * n := by
        simp only [List.length_cons] at hlen
        omega
      have hb8 : ∀ b ∈ [b0, b1, b2, b3, b4, b5, b6, b7], b < 2 ^ 8 := by
        intro b hbmem
        apply hb
        simp only [List.mem_cons, List.not_mem_nil, or_false] at hbmem
        simp only [List.mem_cons]
        tauto
      have hbrest : ∀ b ∈ rest, b < 2 ^ 8 := by
        intro b hbmem
        apply hb
        simp only [List.mem_cons]
        tauto
      have hq : mm_crc32_u64 s64 (toNatLE [b0, b1, b2, b3, b4, b5, b6, b7]) =
          List.foldl mm_crc32_u8 s64 [b0, b1, b2, b3, b4, b5, b6, b7] := by
        rw [mm_crc32_u64_toNatLE s64 [b0, b1, b2, b3, b4, b5, b6, b7]
          (by simp) hb8, Nat.mod_eq_of_lt hs]
      calc foldQwords s64 (b0 :: b1 :: b2 :: b3 :: b4 :: b5 :: b6 :: b7 :: rest)
          = foldQwords (mm_crc32_u64 s64 (toNatLE [b0, b1, b2, b3, b4, b5, b6, b7])) rest := by
            rw [foldQwords]
        _ = List.foldl mm_crc32_u8 (mm_crc32_u64 s64 (toNatLE [b0, b1, b2, b3, b4, b5, b6, b7])) rest :=
            ih rest _ hrest hbrest (mm_crc32_u64_lt _ _)
        _ = List.foldl mm_crc32_u8 (List.foldl mm_crc32_u8 s64 [b0, b1, b2, b3, b4, b5, b6, b7]) rest := by
            rw [hq]
        _ = List.foldl mm_crc32_u8 s64 (b0 :: b1 :: b2 :: b3 :: b4 :: b5 :: b6 :: b7 :: rest) := by
            simp only [List.foldl_cons, List.foldl_nil]

/-- The three-segment (head, aligned 64-bit lanes, tail) computation of the
unrolled strategy equals plain byte-at-a-time folding, for an arbitrary
head length `p`. -/
lemma unrolled_split_eq (p state : Nat) (data : List Nat) (hs : state < 2 ^ 32)
    (hb : ∀ b ∈ data, b < 2 ^ 8) :
    List.foldl mm_crc32_u8
      ((foldQwords (List.foldl mm_crc32_u8 state (data.take p))
          ((data.drop p).take ((data.drop p).length / 8 * 8))) % 2 ^ 32)
      ((data.drop p).drop ((data.drop p).length / 8 * 8))
    = List.foldl mm_crc32_u8 state data := by
  set rest := data.drop p with hrest
  set nq := rest.length / 8 with hnq
  have hmidlen : (rest.take (nq * 8)).length = 8 * nq := by
    rw [List.length_take]
    have : nq * 8 ≤ rest.length := Nat.div_mul_le_self rest.length 8
    omega
  have hbrest : ∀ b ∈ rest, b < 2 ^ 8 := fun b hbm => hb b (List.drop_subset p data hbm)
  have hs1 : List.foldl mm_crc32_u8 state (data.take p) < 2 ^ 32 := foldl_mm_lt _ hs
  rw [foldQwords_eq nq _ _ hmidlen
    (fun b hbm => hbrest b (List.take_subset _ _ hbm)) hs1]
  rw [Nat.mod_eq_of_lt (foldl_mm_lt _ hs1)]
  rw [← List.foldl_append, ← List.foldl_append]
  rw [List.take_append_drop, List.take_append_drop]

/-- The unrolled SSE 4.2 strategy agrees with the linear one for every
start alignment, every 32-bit starting state and every byte buffer. -/
lemma unrolled_eq_linear (a state : Nat) (data : List Nat) (hs : state < 2 ^ 32)
    (hb : ∀ b ∈ data, b < 2 ^ 8) :
    sse42_update_crc32c_unrolled a state data =
      sse42_update_crc32c_linear state data :=
  unrolled_split_eq (min ((8 - a % 8) % 8) data.length) state data hs hb

/-- The linear SSE 4.2 strategy is the software reference: both fold the
same per-byte CRC-32C update. -/
lemma linear_eq_software (state : Nat) (data : List Nat) :
    sse42_update_crc32c_linear state data = software_update_crc32c state data :=
  rfl

/-- The runtime-dispatched update always computes the software reference
value, whichever backend the capability probe selects. -/
lemma runtime_eq_software (hw : Bool) (a state : Nat) (data : List Nat)
    (hs : state < 2 ^ 32) (hb : ∀ b ∈ data, b < 2 ^ 8) :
    update_crc32c_runtime hw a state data = software_update_crc32c state data := by
  unfold update_crc32c_runtime sse42_update_crc32c
  cases hw with
  | false => rfl
  | true =>
    simp only [if_true]
    split
    · rw [unrolled_eq_linear a state data hs hb]
      rfl
    · rfl

lemma software_update_lt {state : Nat} (data : List Nat) (hs : state < 2 ^ 32) :
    software_update_crc32c state data < 2 ^ 32 :=
  foldl_mm_lt data hs

lemma software_update_append (state : Nat) (l1 l2 : List Nat) :
    software_update_crc32c (software_update_crc32c state l1) l2 =
      software_update_crc32c state (l1 ++ l2) :=
  (List.foldl_append _ _ _ _).symm

lemma INIT_CRC32_lt : INIT_CRC32 < 2 ^ 32 := by norm_num [INIT_CRC32]

/-- One-shot checksum always computes the finalization of the software
reference fold, whatever backend the environment selects. -/
lemma checksum_software (hw : Bool) (a : Nat) (data : List Nat)
    (hb : ∀ b ∈ data, b < 2 ^ 8) :
    CRC32C.checksum hw a data =
      swapBytes32 (not32 (software_update_crc32c INIT_CRC32 data)) := by
  unfold CRC32C.checksum CRC32C.complete CRC32C.result CRC32C.update
  rw [show (CRC32C.new).reg = INIT_CRC32 from rfl,
    runtime_eq_software hw a INIT_CRC32 data INIT_CRC32_lt hb]

/-! ## Claim theorems: CRC-32C -/

/-- C1: for every buffer (so in particular every length 0 up to 256 and
beyond, the empty buffer included), every start alignment `a`, and the
initial state `INIT_CRC32`, the hardware CRC-32C backends agree
bit-for-bit with the software reference:
`update_crc32c_unrolled = update_crc32c_linear = software::update_crc32c`. -/
theorem crc32c_backend_equivalence (a : Nat) (data : List Nat)
    (hb : ∀ b ∈ data, b < 2 ^ 8) :
    sse42_update_crc32c_unrolled a INIT_CRC32 data =
        sse42_update_crc32c_linear INIT_CRC32 data
    ∧ sse42_update_crc32c_linear INIT_CRC32 data =
        software_update_crc32c INIT_CRC32 data :=
  ⟨unrolled_eq_linear a INIT_CRC32 data INIT_CRC32_lt hb,
   linear_eq_software INIT_CRC32 data⟩

theorem crc32c_backend_equivalence_witness :
    (∀ b ∈ [13, 200, 7, 255, 0, 91, 44, 180, 23, 6, 250, 17, 99, 3, 128, 77, 201, 5, 66, 31],
      b < 2 ^ 8)
    ∧ (sse42_update_crc32c_unrolled 5 INIT_CRC32
          [13, 200, 7, 255, 0, 91, 44, 180, 23, 6, 250, 17, 99, 3, 128, 77, 201, 5, 66, 31] =
        sse42_update_crc32c_linear INIT_CRC32
          [13, 200, 7, 255, 0, 91, 44, 180, 23, 6, 250, 17, 99, 3, 128, 77, 201, 5, 66, 31]
      ∧ sse42_update_crc32c_linear INIT_CRC32
          [13, 200, 7, 255, 0, 91, 44, 180, 23, 6, 250, 17, 99, 3, 128, 77, 201, 5, 66, 31] =
        software_update_crc32c INIT_CRC32
          [13, 200, 7, 255, 0, 91, 44, 180, 23, 6, 250, 17, 99, 3, 128, 77, 201, 5, 66, 31]) :=
  ⟨by decide,
   crc32c_backend_equivalence 5
     [13, 200, 7, 255, 0, 91, 44, 180, 23, 6, 250, 17, 99, 3, 128, 77, 201, 5, 66, 31]
     (by decide)⟩

/-- C2: for every split point `k ≤ length(seq)`, feeding `seq[0:k]` then
`seq[k:]` through the accumulator and finalizing yields the same value as
feeding `seq` in one update, for any environment (backend selection and
buffer alignments); and the running register after the two updates is
`crc_update(INIT, seq)`, i.e. the software reference fold. -/
theorem crc32c_streaming (hw : Bool) (a1 a2 a3 : Nat) (seq : List Nat) (k : Nat)
    (_hk : k ≤ seq.length) (hb : ∀ b ∈ seq, b < 2 ^ 8) :
    (((CRC32C.new.update hw a1 (seq.take k)).update hw a2 (seq.drop k)).complete
      = (CRC32C.new.update hw a3 seq).complete)
    ∧ (((CRC32C.new.update hw a1 (seq.take k)).update hw a2 (seq.drop k)).reg
      = software_update_crc32c INIT_CRC32 seq) := by
  have hbt : ∀ b ∈ seq.take k, b < 2 ^ 8 := fun b h => hb b (List.take_subset _ _ h)
  have hbd : ∀ b ∈ seq.drop k, b < 2 ^ 8 := fun b h => hb b (List.drop_subset _ _ h)
  have h1 : (CRC32C.new.update hw a1 (seq.take k)).reg =
      software_update_crc32c INIT_CRC32 (seq.take k) :=
    runtime_eq_software hw a1 INIT_CRC32 (seq.take k) INIT_CRC32_lt hbt
  have hreg : ((CRC32C.new.update hw a1 (seq.take k)).update hw a2 (seq.drop k)).reg
      = software_update_crc32c INIT_CRC32 seq := by
    show update_crc32c_runtime hw a2
        (CRC32C.new.update hw a1 (seq.take k)).reg (seq.drop k) = _
    rw [h1, runtime_eq_software hw a2 _ (seq.drop k)
      (software_update_lt _ INIT_CRC32_lt) hbd,
      software_update_append, List.take_append_drop]
  have hreg3 : (CRC32C.new.update hw a3 seq).reg =
      software_update_crc32c INIT_CRC32 seq :=
    runtime_eq_software hw a3 INIT_CRC32 seq INIT_CRC32_lt hb
  refine ⟨?_, hreg⟩
  unfold CRC32C.complete CRC32C.result
  rw [hreg, hreg3]

theorem crc32c_streaming_witness :
    (7 ≤ [10, 20, 30, 40, 50, 60, 70, 80, 90, 100, 110, 120, 130, 140, 150, 160, 170].length
      ∧ ∀ b ∈ [10, 20, 30, 40, 50, 60, 70, 80, 90, 100, 110, 120, 130, 140, 150, 160, 170],
          b < 2 ^ 8)
    ∧ ((((CRC32C.new.update true 1
            ([10, 20, 30, 40, 50, 60, 70, 80, 90, 100, 110, 120, 130, 140, 150, 160, 170].take 7)).update
            true 2
            ([10, 20, 30, 40, 50, 60, 70, 80, 90, 100, 110, 120, 130, 140, 150, 160, 170].drop 7)).complete
        = (CRC32C.new.update true 3
            [10, 20, 30, 40, 50, 60, 70, 80, 90, 100, 110, 120, 130, 140, 150, 160, 170]).complete)
      ∧ (((CRC32C.new.update true 1
            ([10, 20, 30, 40, 50, 60, 70, 80, 90, 100, 110, 120, 130, 140, 150, 160, 170].take 7)).update
            true 2
            ([10, 20, 30, 40, 50, 60, 70, 80, 90, 100, 110, 120, 130, 140, 150, 160, 170].drop 7)).reg
        = software_update_crc32c INIT_CRC32
            [10, 20, 30, 40, 50, 60, 70, 80, 90, 100, 110, 120, 130, 140, 150, 160, 170])) :=
  ⟨⟨by decide, by decide⟩,
   crc32c_streaming true 1 2 3
     [10, 20, 30, 40, 50, 60, 70, 80, 90, 100, 110, 120, 130, 140, 150, 160, 170] 7
     (by decide) (by decide)⟩

set_option maxRecDepth 40000 in
/-- C3: `CRC32C::checksum` returns the Castagnoli reference values for the
empty string, "123456789" and "CRC-32C", whichever backend the environment
selects. -/
theorem crc32c_known_values (hw : Bool) (a : Nat) :
    CRC32C.checksum hw a [] = 0
    ∧ CRC32C.checksum hw a [0x31, 0x32, 0x33, 0x34, 0x35, 0x36, 0x37, 0x38, 0x39] = 0x839206E3
    ∧ CRC32C.checksum hw a [0x43, 0x52, 0x43, 0x2D, 0x33, 0x32, 0x43] = 0xED6F84DA := by
  refine ⟨?_, ?_, ?_⟩ <;>
    rw [checksum_software hw a _ (by decide)] <;> decide

/-- C6: the cached dispatch path computes the same value as the
re-detect-every-call path from any reachable slot state; after the first
call the process-wide slot holds the backend picked by detection (hardware
when available, software otherwise); and a call finding a published
backend in the slot leaves the slot unchanged and does not run detection
(instrumentation flag `false`). -/
theorem crc32c_lazy_dispatch (hw : Bool) (a state : Nat) (data : List Nat)
    (slot : CRCFn)
    (hslot : slot = CRCFn.detectFn
      ∨ slot = (if hw then CRCFn.sse42Fn else CRCFn.softwareFn)) :
    (update_crc32c_lazy hw a slot state data).1 = update_crc32c_runtime hw a state data
    ∧ (update_crc32c_lazy hw a slot state data).2.1
        = (if hw then CRCFn.sse42Fn else CRCFn.softwareFn)
    ∧ (update_crc32c_lazy hw a UPDATE_CRC32C_init state data).2.1
        = (if hw then CRCFn.sse42Fn else CRCFn.softwareFn)
    ∧ (slot ≠ CRCFn.detectFn →
        (update_crc32c_lazy hw a slot state data).2.2 = false
        ∧ (update_crc32c_lazy hw a slot state data).2.1 = slot) := by
  rcases hslot with h | h <;> subst h <;> cases hw <;>
    simp only [update_crc32c_lazy, detect_update_crc32c, update_crc32c_runtime,
      UPDATE_CRC32C_init, if_true, if_false, Bool.false_eq_true, ne_eq,
      not_true_eq_false, false_implies, not_false_eq_true, true_implies,
      and_self, and_true, true_and] <;>
    simp

theorem crc32c_lazy_dispatch_witness :
    (CRCFn.detectFn = CRCFn.detectFn
      ∨ CRCFn.detectFn = (if true then CRCFn.sse42Fn else CRCFn.softwareFn))
    ∧ ((update_crc32c_lazy true 0 CRCFn.detectFn 0 [1, 2, 3]).1
        = update_crc32c_runtime true 0 0 [1, 2, 3]
      ∧ (update_crc32c_lazy true 0 CRCFn.detectFn 0 [1, 2, 3]).2.1
          = (if true then CRCFn.sse42Fn else CRCFn.softwareFn)
      ∧ (update_crc32c_lazy true 0 UPDATE_CRC32C_init 0 [1, 2, 3]).2.1
          = (if true then CRCFn.sse42Fn else CRCFn.softwareFn)
      ∧ (CRCFn.detectFn ≠ CRCFn.detectFn →
          (update_crc32c_lazy true 0 CRCFn.detectFn 0 [1, 2, 3]).2.2 = false
          ∧ (update_crc32c_lazy true 0 CRCFn.detectFn 0 [1, 2, 3]).2.1
              = CRCFn.detectFn)) :=
  ⟨Or.inl rfl, crc32c_lazy_dispatch true 0 0 [1, 2, 3] CRCFn.detectFn (Or.inl rfl)⟩

/-- C7: `reset()` returns exactly what `complete()` would return on the
current register — the bitwise complement followed by the byte-order
reversal — and reinitializes the register to `INIT_CRC32` (i.e. a fresh
`CRC32C::new()`); consequently feeding an identical byte sequence after a
reset and resetting again yields the identical finalized value both
times. -/
theorem crc32c_reset_spec (hw : Bool) (a1 a2 : Nat) (c : CRC32C) (seq : List Nat)
    (hb : ∀ b ∈ seq, b < 2 ^ 8) :
    c.reset = (c.complete, CRC32C.new)
    ∧ c.reset = (swapBytes32 (not32 c.reg), { reg := INIT_CRC32 })
    ∧ ((c.reset).2.update hw a1 seq).reset.1
        = ((CRC32C.new.update hw a2 seq)).reset.1 := by
  refine ⟨rfl, rfl, ?_⟩
  have e1 : ((c.reset).2.update hw a1 seq).reset.1
      = swapBytes32 (not32 (update_crc32c_runtime hw a1 INIT_CRC32 seq)) := rfl
  have e2 : ((CRC32C.new.update hw a2 seq)).reset.1
      = swapBytes32 (not32 (update_crc32c_runtime hw a2 INIT_CRC32 seq)) := rfl
  rw [e1, e2, runtime_eq_software hw a1 INIT_CRC32 seq INIT_CRC32_lt hb,
    runtime_eq_software hw a2 INIT_CRC32 seq INIT_CRC32_lt hb]

theorem crc32c_reset_spec_witness :
    (∀ b ∈ [1, 2, 3, 4, 5, 6, 7, 8, 9, 10, 11, 12, 13, 14, 15, 16, 17, 18], b < 2 ^ 8)
    ∧ (({ reg := 12345 } : CRC32C).reset = (({ reg := 12345 } : CRC32C).complete, CRC32C.new)
      ∧ ({ reg := 12345 } : CRC32C).reset
          = (swapBytes32 (not32 ({ reg := 12345 } : CRC32C).reg), { reg := INIT_CRC32 })
      ∧ ((({ reg := 12345 } : CRC32C).reset).2.update true 4
            [1, 2, 3, 4, 5, 6, 7, 8, 9, 10, 11, 12, 13, 14, 15, 16, 17, 18]).reset.1
          = ((CRC32C.new.update true 6
            [1, 2, 3, 4, 5, 6, 7, 8, 9, 10, 11, 12, 13, 14, 15, 16, 17, 18])).reset.1) :=
  ⟨by decide,
   crc32c_reset_spec true 4 6 { reg := 12345 }
     [1, 2, 3, 4, 5, 6, 7, 8, 9, 10, 11, 12, 13, 14, 15, 16, 17, 18] (by decide)⟩

/-! ## Claim theorems: digest context -/

/-- A concrete stand-in digest engine used by the witnesses: it returns
`output_size` zero bytes for every input. -/
def digestZero (a : Algorithm) (_ : List Nat) : List Nat :=
  List.replicate a.outputSize 0

/-- C4: once a `Hash` is finalised, nothing un-finalises it: `finalise`
returns a `Failure` error leaving both the context (still finalised) and
the caller's buffer unchanged, and `write` aborts (`none`) instead of
returning; a finalised context never yields a second digest value. -/
theorem hash_finalised_terminal (digest : Algorithm → List Nat → List Nat)
    (h : Hash) (buffer bytes : List Nat) (hfin : h.finalised = true) :
    Hash.finalise digest h buffer = (Except.error ErrorKind.Failure, h, buffer)
    ∧ (Hash.finalise digest h buffer).2.1.finalised = true
    ∧ Hash.write h bytes = none := by
  unfold Hash.finalise Hash.write
  rw [hfin]
  simp [hfin]

theorem hash_finalised_terminal_witness :
    (({ ctx := { md := some Algorithm.SHA256, fed := [7] }, finalised := true } : Hash).finalised
      = true)
    ∧ (Hash.finalise digestZero
        { ctx := { md := some Algorithm.SHA256, fed := [7] }, finalised := true } [1, 2]
        = (Except.error ErrorKind.Failure,
           { ctx := { md := some Algorithm.SHA256, fed := [7] }, finalised := true }, [1, 2])
      ∧ (Hash.finalise digestZero
          { ctx := { md := some Algorithm.SHA256, fed := [7] }, finalised := true }
          [1, 2]).2.1.finalised = true
      ∧ Hash.write
          { ctx := { md := some Algorithm.SHA256, fed := [7] }, finalised := true } [3]
          = none) :=
  ⟨rfl,
   hash_finalised_terminal digestZero
     { ctx := { md := some Algorithm.SHA256, fed := [7] }, finalised := true } [1, 2] [3] rfl⟩

/-- C5: finalising a `Ready` hash into a too-small buffer returns
`BufferTooSmall(output_size())`, leaving the context in `Ready` with the
fed bytes intact and the buffer untouched; a subsequent `finalise` with a
large-enough buffer succeeds with the digest of all bytes fed. -/
theorem hash_finalise_buffer_too_small (digest : Algorithm → List Nat → List Nat)
    (alg : Algorithm) (h : Hash) (buffer buffer2 : List Nat)
    (halg : h.ctx.md = some alg) (hfin : h.finalised = false)
    (hshort : buffer.length < alg.outputSize)
    (hbig : alg.outputSize ≤ buffer2.length) :
    Hash.finalise digest h buffer
      = (Except.error (ErrorKind.BufferTooSmall (Hash.output_size h)), h, buffer)
    ∧ (Hash.finalise digest h buffer).2.1.finalised = false
    ∧ (Hash.finalise digest h buffer2).1 = Except.ok (digest alg h.ctx.fed)
    ∧ (Hash.finalise digest h buffer2).2.1.finalised = true := by
  have hsize : EVP_MD_CTX_size h.ctx = alg.outputSize := by
    unfold EVP_MD_CTX_size
    rw [halg]
  have hfail : EVP_DigestFinal_ex digest h.ctx buffer
      = (Except.error (ErrorKind.BufferTooSmall (EVP_MD_CTX_size h.ctx)), buffer) := by
    unfold EVP_DigestFinal_ex
    rw [hsize, if_pos hshort]
  have hok : EVP_DigestFinal_ex digest h.ctx buffer2
      = (Except.ok ((digest alg h.ctx.fed ++ buffer2.drop (digest alg h.ctx.fed).length).take
          (digest alg h.ctx.fed).length),
         digest alg h.ctx.fed ++ buffer2.drop (digest alg h.ctx.fed).length) := by
    unfold EVP_DigestFinal_ex
    rw [hsize, if_neg (by omega), halg]
  refine ⟨?_, ?_, ?_, ?_⟩ <;>
    unfold Hash.finalise <;>
    rw [hfin] <;>
    simp only [Bool.false_eq_true, if_false, hfail, hok, Hash.output_size,
      List.take_left]
  exact hfin

theorem hash_finalise_buffer_too_small_witness :
    (({ ctx := { md := some Algorithm.SHA256, fed := [5, 6] }, finalised := false } : Hash).ctx.md
        = some Algorithm.SHA256
      ∧ ({ ctx := { md := some Algorithm.SHA256, fed := [5, 6] }, finalised := false } : Hash).finalised
        = false
      ∧ (List.replicate 16 (0 : Nat)).length < Algorithm.SHA256.outputSize
      ∧ Algorithm.SHA256.outputSize ≤ (List.replicate 32 (0 : Nat)).length)
    ∧ (Hash.finalise digestZero
          { ctx := { md := some Algorithm.SHA256, fed := [5, 6] }, finalised := false }
          (List.replicate 16 0)
        = (Except.error (ErrorKind.BufferTooSmall
            (Hash.output_size
              { ctx := { md := some Algorithm.SHA256, fed := [5, 6] }, finalised := false })),
           { ctx := { md := some Algorithm.SHA256, fed := [5, 6] }, finalised := false },
           List.replicate 16 0)
      ∧ (Hash.finalise digestZero
          { ctx := { md := some Algorithm.SHA256, fed := [5, 6] }, finalised := false }
          (List.replicate 16 0)).2.1.finalised = false
      ∧ (Hash.finalise digestZero
          { ctx := { md := some Algorithm.SHA256, fed := [5, 6] }, finalised := false }
          (List.replicate 32 0)).1
          = Except.ok (digestZero Algorithm.SHA256 [5, 6])
      ∧ (Hash.finalise digestZero
          { ctx := { md := some Algorithm.SHA256, fed := [5, 6] }, finalised := false }
          (List.replicate 32 0)).2.1.finalised = true) :=
  ⟨⟨rfl, rfl, by decide, by decide⟩,
   hash_finalise_buffer_too_small digestZero Algorithm.SHA256
     { ctx := { md := some Algorithm.SHA256, fed := [5, 6] }, finalised := false }
     (List.replicate 16 0) (List.replicate 32 0) rfl rfl (by decide) (by decide)⟩

/-- C8: a successful `finalise` into a large-enough buffer writes exactly
`output_size()` bytes at the start of the buffer, returns that sub-slice,
leaves every byte of the buffer from index `output_size()` on unchanged
(and the buffer length unchanged), and marks the context finalised. -/
theorem hash_finalise_success_frame (digest : Algorithm → List Nat → List Nat)
    (alg : Algorithm) (h : Hash) (buffer : List Nat)
    (halg : h.ctx.md = some alg) (hfin : h.finalised = false)
    (hbig : alg.outputSize ≤ buffer.length)
    (hdig : (digest alg h.ctx.fed).length = alg.outputSize) :
    Hash.finalise digest h buffer
      = (Except.ok (digest alg h.ctx.fed), { h with finalised := true },
         digest alg h.ctx.fed ++ buffer.drop alg.outputSize)
    ∧ ((Hash.finalise digest h buffer).2.2).take (Hash.output_size h)
        = digest alg h.ctx.fed
    ∧ ((Hash.finalise digest h buffer).2.2).drop (Hash.output_size h)
        = buffer.drop (Hash.output_size h)
    ∧ ((Hash.finalise digest h buffer).2.2).length = buffer.length
    ∧ (Hash.finalise digest h buffer).1
        = Except.ok (((Hash.finalise digest h buffer).2.2).take (Hash.output_size h)) := by
  have hsize : EVP_MD_CTX_size h.ctx = alg.outputSize := by
    unfold EVP_MD_CTX_size
    rw [halg]
  have hout : Hash.output_size h = alg.outputSize := by
    unfold Hash.output_size
    exact hsize
  have hok : EVP_DigestFinal_ex digest h.ctx buffer
      = (Except.ok (digest alg h.ctx.fed),
         digest alg h.ctx.fed ++ buffer.drop alg.outputSize) := by
    unfold EVP_DigestFinal_ex
    rw [hsize, if_neg (by omega)]
    simp only [halg]
    rw [hdig, List.take_left' hdig]
  have hmain : Hash.finalise digest h buffer
      = (Except.ok (digest alg h.ctx.fed), { h with finalised := true },
         digest alg h.ctx.fed ++ buffer.drop alg.outputSize) := by
    unfold Hash.finalise
    rw [hfin]
    simp only [Bool.false_eq_true, if_false, hok]
  refine ⟨hmain, ?_, ?_, ?_, ?_⟩ <;> rw [hmain]
  · show (digest alg h.ctx.fed ++ buffer.drop alg.outputSize).take (Hash.output_size h)
        = digest alg h.ctx.fed
    rw [hout]
    exact List.take_left' hdig
  · show (digest alg h.ctx.fed ++ buffer.drop alg.outputSize).drop (Hash.output_size h)
        = buffer.drop (Hash.output_size h)
    rw [hout]
    exact List.drop_left' hdig
  · show (digest alg h.ctx.fed ++ buffer.drop alg.outputSize).length = buffer.length
    rw [List.length_append, List.length_drop, hdig]
    omega
  · show Except.ok (digest alg h.ctx.fed)
        = Except.ok ((digest alg h.ctx.fed ++ buffer.drop alg.outputSize).take
            (Hash.output_size h))
    rw [hout, List.take_left' hdig]

theorem hash_finalise_success_frame_witness :
    (({ ctx := { md := some Algorithm.SHA256, fed := [9, 9] }, finalised := false } : Hash).ctx.md
        = some Algorithm.SHA256
      ∧ ({ ctx := { md := some Algorithm.SHA256, fed := [9, 9] }, finalised := false } : Hash).finalised
        = false
      ∧ Algorithm.SHA256.outputSize ≤ (List.replicate 40 (7 : Nat)).length
      ∧ (digestZero Algorithm.SHA256 [9, 9]).length = Algorithm.SHA256.outputSize)
    ∧ (Hash.finalise digestZero
          { ctx := { md := some Algorithm.SHA256, fed := [9, 9] }, finalised := false }
          (List.replicate 40 7)
        = (Except.ok (digestZero Algorithm.SHA256 [9, 9]),
           { ctx := { md := some Algorithm.SHA256, fed := [9, 9] }, finalised := true },
           digestZero Algorithm.SHA256 [9, 9]
             ++ (List.replicate 40 (7 : Nat)).drop Algorithm.SHA256.outputSize)
      ∧ ((Hash.finalise digestZero
            { ctx := { md := some Algorithm.SHA256, fed := [9, 9] }, finalised := false }
            (List.replicate 40 7)).2.2).take
            (Hash.output_size
              { ctx := { md := some Algorithm.SHA256, fed := [9, 9] }, finalised := false })
          = digestZero Algorithm.SHA256 [9, 9]
      ∧ ((Hash.finalise digestZero
            { ctx := { md := some Algorithm.SHA256, fed := [9, 9] }, finalised := false }
            (List.replicate 40 7)).2.2).drop
            (Hash.output_size
              { ctx := { md := some Algorithm.SHA256, fed := [9, 9] }, finalised := false })
          = (List.replicate 40 (7 : Nat)).drop
            (Hash.output_size
              { ctx := { md := some Algorithm.SHA256, fed := [9, 9] }, finalised := false })
      ∧ ((Hash.finalise digestZero
            { ctx := { md := some Algorithm.SHA256, fed := [9, 9] }, finalised := false }
            (List.replicate 40 7)).2.2).length = (List.replicate 40 (7 : Nat)).length
      ∧ (Hash.finalise digestZero
            { ctx := { md := some Algorithm.SHA256, fed := [9, 9] }, finalised := false }
            (List.replicate 40 7)).1
          = Except.ok (((Hash.finalise digestZero
              { ctx := { md := some Algorithm.SHA256, fed := [9, 9] }, finalised := false }
              (List.replicate 40 7)).2.2).take
              (Hash.output_size
                { ctx := { md := some Algorithm.SHA256, fed := [9, 9] }, finalised := false }))) :=
  ⟨⟨rfl, rfl, by decide, by decide⟩,
   hash_finalise_success_frame digestZero Algorithm.SHA256
     { ctx := { md := some Algorithm.SHA256, fed := [9, 9] }, finalised := false }
     (List.replicate 40 7) rfl rfl (by decide) (by decide)⟩

/-- C9: creating a digest context fails with a `Failure` error — returned
to the caller instead of a context — whenever the native layer cannot
allocate (`allocOk = false`) or cannot initialize (`initOk = false`) the
handle. -/
theorem hash_try_new_failure (allocOk initOk : Bool) (algorithm : Algorithm)
    (hfail : allocOk = false ∨ initOk = false) :
    Hash.try_new allocOk initOk algorithm = Except.error ErrorKind.Failure
    ∧ Hash.new allocOk initOk algorithm = none := by
  have hmain : Hash.try_new allocOk initOk algorithm = Except.error ErrorKind.Failure := by
    rcases hfail with hne | hne <;> subst hne
    · unfold Hash.try_new EVP_MD_CTX_create
      simp
    · cases allocOk <;>
        unfold Hash.try_new EVP_MD_CTX_create EVP_DigestInit <;>
        simp
  refine ⟨hmain, ?_⟩
  unfold Hash.new
  rw [hmain]

theorem hash_try_new_failure_witness :
    ((true : Bool) = false ∨ (false : Bool) = false)
    ∧ (Hash.try_new true false Algorithm.SHA512 = Except.error ErrorKind.Failure
      ∧ Hash.new true false Algorithm.SHA512 = none) :=
  ⟨Or.inr rfl, hash_try_new_failure true false Algorithm.SHA512 (Or.inr rfl)⟩

/-- C10: in `Hash::finalise` the already-finalised check precedes the
buffer-size check: a finalised hash gets a `Failure` error for every
buffer — a too-small buffer included — and never a `BufferTooSmall`
error. -/
theorem hash_finalise_check_order (digest : Algorithm → List Nat → List Nat)
    (h : Hash) (buffer : List Nat) (hfin : h.finalised = true) :
    (Hash.finalise digest h buffer).1 = Except.error ErrorKind.Failure
    ∧ ∀ n : Nat, (Hash.finalise digest h buffer).1
        ≠ Except.error (ErrorKind.BufferTooSmall n) := by
  unfold Hash.finalise
  rw [hfin]
  simp

theorem hash_finalise_check_order_witness :
    (({ ctx := { md := some Algorithm.SHA512, fed := [] }, finalised := true } : Hash).finalised
      = true)
    ∧ ((Hash.finalise digestZero
          { ctx := { md := some Algorithm.SHA512, fed := [] }, finalised := true }
          [0]).1 = Except.error ErrorKind.Failure
      ∧ ∀ n : Nat, (Hash.finalise digestZero
          { ctx := { md := some Algorithm.SHA512, fed := [] }, finalised := true }
          [0]).1 ≠ Except.error (ErrorKind.BufferTooSmall n)) :=
  ⟨rfl,
   hash_finalise_check_order digestZero
     { ctx := { md := some Algorithm.SHA512, fed := [] }, finalised := true } [0] rfl⟩
